import Mathlib

/-!
Shallow embedding of the news-spider crawl-dedup-filter-notify pipeline
(`src/main.py`) and verification of its specified properties.

The embedding mirrors the source:
- `LinkRecord` / `linkCreate` model the peewee `Link` model (`link`, `date`,
  `tags` columns; `link` is a plain `CharField` with no unique constraint,
  so `create` is an unconditional insert).
- `discoverLinks` models the anchor-scanning loop (lines 78-83): an anchor's
  `href` may be absent (`None`), in which case `url_path in href` raises
  `TypeError`; candidates are hrefs containing the listing path as a
  substring, not equal to it, deduplicated in discovery order.
- `resolveLink` models line 87: `"{}/{}".format(url_site, str(link).lstrip("/"))`,
  with `url_site = "{}://{}".format(scheme, netloc.rstrip("/"))` (line 63).
- `processOne` models the per-candidate body of the `for link in reversed(links)`
  loop (lines 86-133): history lookup, extraction, age filter
  (`date_delta.days > 1`, with `timedelta.days` being floor division of the
  elapsed seconds by 86400), length filter (`len(maintext) < 512`), keyword
  selection (`v > 3 and len(k) >= 5`, rendered `"{k}_{v}"`, comma-joined),
  record creation, and the Telegram push (`push_news`, lines 136-168), whose
  `requests.post` may raise and is not caught anywhere.
- `fetch` models the whole `fetch(site_url)` (lines 53-133); `mainRun` models
  the `for url in urls: fetch(url)` driver loop (lines 189-190).

Timestamps are seconds since an arbitrary epoch (`Int`); keyword degrees are
modelled as `Int`.
-/

/-- One row of the `Link` table: columns `link`, `date`, `tags` (main.py 33-36). -/
structure LinkRecord where
  link : String
  date : Int
  tags : String
deriving Repr, DecidableEq

/-- The extracted article, as returned by `NewsPlease.from_url`:
`date_publish` (seconds since epoch), `title`, `description`, `maintext`. -/
structure Article where
  date_publish : Int
  title : String
  description : String
  maintext : String
deriving Repr, DecidableEq

/-- `Link.create(...)`: an unconditional row insert.  The `link` column is a
plain `CharField(max_length=1024, null=False)` with no `unique=True` and no
index (main.py 33-36), so the storage layer accepts a duplicate `link`. -/
def linkCreate (store : List LinkRecord) (rec : LinkRecord) : List LinkRecord :=
  store ++ [rec]

/-- `Link.get_or_none(link=site_link)` (main.py 90): first stored row whose
`link` column equals the given url, if any. -/
def linkGetOrNone (store : List LinkRecord) (url : String) : Option LinkRecord :=
  store.find? (fun r => r.link == url)

/-- Number of rows whose `link` column equals `u`. -/
def countUrl (store : List LinkRecord) (u : String) : Nat :=
  (store.filter (fun r => r.link == u)).length

/-- `needle in hay` on `List Char` (Python substring membership). -/
def listContainsSub (needle : List Char) : List Char → Bool
  | [] => needle.isEmpty
  | c :: rest => needle.isPrefixOf (c :: rest) || listContainsSub needle rest

/-- Python `needle in hay` for strings: substring membership. -/
def strIn (needle hay : String) : Bool :=
  listContainsSub needle.data hay.data

/-- Python `s.lstrip("/")`: drop every leading `/`. -/
def lstripSlashes (s : String) : String :=
  String.mk (s.data.dropWhile (fun c => c == '/'))

/-- Python `s.rstrip("/")`: drop every trailing `/`. -/
def rstripSlashes (s : String) : String :=
  String.mk (s.data.reverse.dropWhile (fun c => c == '/')).reverse

/-- main.py 63: `url_site = "{}://{}".format(url_parse.scheme, url_parse.netloc.rstrip("/"))`. -/
def mkUrlSite (scheme netloc : String) : String :=
  scheme ++ "://" ++ rstripSlashes netloc

/-- main.py 87: `site_link = "{}/{}".format(url_site, str(link).lstrip("/"))`. -/
def resolveLink (urlSite href : String) : String :=
  urlSite ++ "/" ++ lstripSlashes href

/-- Modelled from the spec (section 4.2 step 4), NOT from the source, for
comparison: strip exactly ONE leading slash from the candidate and exactly ONE
trailing slash from the site root, then join with exactly one slash. -/
def resolveLinkSpecOne (urlSite href : String) : String :=
  (match urlSite.data.reverse with
    | '/' :: rest => String.mk rest.reverse
    | _ => urlSite)
  ++ "/" ++
  (match href.data with
    | '/' :: rest => String.mk rest
    | _ => href)

/-- The discovery loop, main.py 78-83:
```
links = []
for item in res:
    href = item.get("href")
    if url_path in href:
        if href != url_path and href not in links:
            links.append(href)
```
An anchor without `href` makes `item.get("href")` return `None`, and
`url_path in None` raises `TypeError` (modelled as `.error ()`). -/
def discoverLinks (urlPath : String) : List (Option String) → List String →
    Except Unit (List String)
  | [], acc => .ok acc
  | none :: _, _ => .error ()
  | some h :: rest, acc =>
    if strIn urlPath h && !(h == urlPath) && !(acc.contains h) then
      discoverLinks urlPath rest (acc ++ [h])
    else
      discoverLinks urlPath rest acc

/-- main.py 104: `date_delta.days > 1` where `date_delta = utcnow - date_publish`;
`timedelta.days` is the floor of the elapsed seconds divided by 86400. -/
def tooOldB (now pub : Int) : Bool :=
  Int.fdiv (now - pub) 86400 > 1

/-- main.py 118-121: keep `"{k}_{v}"` for each scorer pair with
`v > 3 and len(k) >= 5`, in scorer iteration order. -/
def selectKeywords : List (String × Int) → List String
  | [] => []
  | (k, v) :: rest =>
    if v > 3 && k.length ≥ 5 then
      (k ++ "_" ++ toString v) :: selectKeywords rest
    else
      selectKeywords rest

/-- All the external inputs one `fetch(site_url)` call depends on. -/
structure Env where
  /-- `url_parse.path` (main.py 61). -/
  urlPath : String
  /-- `url_site` (main.py 63). -/
  urlSite : String
  /-- `url_title = url_parse.netloc.rstrip("/")` (main.py 62). -/
  urlTitle : String
  /-- whether `requests.get(site_url)` (main.py 67) returns without raising. -/
  pageOk : Bool
  /-- the `href` attribute of each `<a>` tag on the listing page, in page order;
  `none` models an anchor with no `href` attribute. -/
  anchors : List (Option String)
  /-- `NewsPlease.from_url` (main.py 96): `none` models a raised exception. -/
  extract : String → Option Article
  /-- the Rake scorer output `get_kw_degree()` for a given maintext, as an
  association list in iteration order (main.py 115-116). -/
  rake : String → List (String × Int)
  /-- `datetime.datetime.utcnow()` (main.py 101), seconds since epoch. -/
  now : Int
  /-- `os.environ.get("TELEGRAM_TOKEN", None)` (main.py 148). -/
  token : Option String
  /-- `os.environ.get("TELEGRAM_CHAT", 0)`: `none` models the unset variable
  (the Python default `0`). -/
  chat : Option String
  /-- whether `requests.post` to the Telegram API (main.py 167) plus
  `result.json()` (main.py 168) completes without raising, per news url. -/
  deliverOk : String → Bool

/-- main.py 151: `if not bot_token or bot_chat_id == 0` — the token is falsy
(unset or empty) or the chat id is unset (Python default `0`). -/
def credsMissing (env : Env) : Bool :=
  env.token == none || env.token == some "" || env.chat == none

/-- Result of one `push_news` call (main.py 136-168). -/
inductive PushResult where
  /-- missing credentials: logs an error and returns (main.py 151-153). -/
  | skipped
  /-- the POST completed and its response was logged. -/
  | sent
  /-- `requests.post` (or `result.json()`) raised; nothing catches it. -/
  | raised
deriving Repr, DecidableEq

/-- `push_news` (main.py 136-168). -/
def push_news (env : Env) (news_url : String) : PushResult :=
  if credsMissing env then .skipped
  else if env.deliverOk news_url then .sent
  else .raised

/-- An abnormal termination of the run. -/
inductive Abort where
  /-- `sys.exit(code)`. -/
  | sysExit (code : Nat)
  /-- an uncaught exception (`TypeError`, a raised `requests.post`, ...). -/
  | exn
deriving Repr, DecidableEq

/-- The record written by the acceptance branch (main.py 124). -/
def acceptedRecord (env : Env) (page : Article) (siteLink : String) : LinkRecord :=
  ⟨siteLink, page.date_publish,
    String.intercalate "," (selectKeywords (env.rake page.maintext))⟩

/-- The body of the `for link in reversed(links)` loop for one candidate
(main.py 86-133).  Returns the store after this candidate, the urls for which
a notification was delivered, and `some a` if the iteration aborted the run. -/
def processOne (env : Env) (store : List LinkRecord) (href : String) :
    List LinkRecord × List String × Option Abort :=
  let site_link := resolveLink env.urlSite href
  match linkGetOrNone store site_link with
  | some _ => (store, [], none)
  | none =>
    match env.extract site_link with
    | none => (store, [], none)
    | some page =>
      if tooOldB env.now page.date_publish then
        (linkCreate store ⟨site_link, page.date_publish, "to_old"⟩, [], none)
      else if page.maintext.length < 512 then
        (linkCreate store ⟨site_link, page.date_publish, "to_small"⟩, [], none)
      else
        let store' := linkCreate store (acceptedRecord env page site_link)
        match push_news env site_link with
        | .skipped => (store', [], none)
        | .sent => (store', [site_link], none)
        | .raised => (store', [], some .exn)

/-- The `for link in reversed(links)` loop (main.py 86-133), already given the
candidate list in processing order.  An abort stops the loop. -/
def processLinks (env : Env) : List String → List LinkRecord →
    List LinkRecord × List String × Option Abort
  | [], store => (store, [], none)
  | href :: rest, store =>
    let p := processOne env store href
    if p.2.2 = none then
      let r := processLinks env rest p.1
      (r.1, p.2.1 ++ r.2.1, r.2.2)
    else p

/-- One `fetch(site_url)` call (main.py 53-133): listing-page fetch (exit 1 on
failure), link discovery (TypeError on an href-less anchor), then the
processing loop over `reversed(links)`. -/
def fetch (env : Env) (store : List LinkRecord) :
    List LinkRecord × List String × Option Abort :=
  if env.pageOk then
    match discoverLinks env.urlPath env.anchors [] with
    | .error _ => (store, [], some .exn)
    | .ok links => processLinks env links.reverse store
  else
    (store, [], some (.sysExit 1))

/-- The driver loop `for url in urls: fetch(url)` (main.py 189-190): an abort
in one `fetch` terminates the whole process. -/
def mainRun : List Env → List LinkRecord →
    List LinkRecord × List String × Option Abort
  | [], store => (store, [], none)
  | env :: rest, store =>
    let p := fetch env store
    if p.2.2 = none then
      let r := mainRun rest p.1
      (r.1, p.2.1 ++ r.2.1, r.2.2)
    else p

/-! Concrete environments used to instantiate the theorems below.
`Env` fields in order: urlPath, urlSite, urlTitle, pageOk, anchors, extract,
rake, now, token, chat, deliverOk. -/

/-- An extracted article whose maintext has exactly 512 characters. -/
def longArticle : Article :=
  ⟨0, "title", "descr", String.mk (List.replicate 512 'x')⟩

/-- An extracted article whose maintext is shorter than 512 characters. -/
def shortArticle : Article :=
  ⟨0, "title", "descr", "short text"⟩

/-- A run taken 1 day and 1 second after the article's publication. -/
def envC2 : Env :=
  ⟨"/news", "https://ex.com", "ex.com", true, [some "/news/a"],
    fun _ => some shortArticle, fun _ => [], 86401, some "tok", some "42",
    fun _ => true⟩

/-- A run in which the same resolved url arises from two distinct hrefs. -/
def envC4 : Env :=
  ⟨"/news", "https://ex.com", "ex.com", true, [some "/news/a", some "//news/a"],
    fun _ => some shortArticle, fun _ => [], 86400, none, none, fun _ => true⟩

/-- A run with Telegram credentials present but a raising `requests.post`. -/
def envC5 : Env :=
  ⟨"/news", "https://ex.com", "ex.com", true, [some "/news/a", some "/news/b"],
    fun _ => some longArticle, fun _ => [], 86400, some "tok", some "42",
    fun _ => false⟩

/-- A run with the Telegram credentials unset. -/
def envC5m : Env :=
  ⟨"/news", "https://ex.com", "ex.com", true, [some "/news/a", some "/news/b"],
    fun _ => some longArticle, fun _ => [], 86400, none, none, fun _ => true⟩

/-- A fully successful run: fresh young long articles, credentials, delivery. -/
def envC8 : Env :=
  ⟨"/news", "https://ex.com", "ex.com", true, [some "/news/a", some "/news/b"],
    fun _ => some longArticle,
    fun _ => [("election", 5), ("the", 10), ("ab", 8), ("vote", 4)],
    86400, some "tok", some "42", fun _ => true⟩

/-- A run whose articles are more than a whole day old. -/
def envC9 : Env :=
  ⟨"/news", "https://ex.com", "ex.com", true, [some "/news/a", some "/news/b"],
    fun _ => some shortArticle, fun _ => [], 200000, none, none, fun _ => true⟩

/-- A listing page one of whose anchors carries no `href` attribute. -/
def envC10 : Env :=
  ⟨"/news", "https://ex.com", "ex.com", true, [some "/news/a", none],
    fun _ => some shortArticle, fun _ => [], 86400, none, none, fun _ => true⟩

/-! Helper lemmas. -/

/-- The age guard `date_delta.days > 1` fires exactly when at least two whole
days (172800 seconds) have elapsed. -/
theorem tooOldB_iff (now pub : Int) : tooOldB now pub = true ↔ 172800 ≤ now - pub := by
  unfold tooOldB
  rw [Int.fdiv_eq_ediv _ (by norm_num)]
  simp only [decide_eq_true_eq]
  omega

/-- Claim C1, counterexample: with a record for `https://ex.com/news/a` already
stored, `Link.create` on the same url is not rejected: it succeeds and the
store then holds two rows with that url (the `link` column has no unique
constraint, main.py 33-36). -/
theorem C1_counterexample :
    linkCreate [⟨"https://ex.com/news/a", 100, "to_old"⟩]
        ⟨"https://ex.com/news/a", 200, "election_5"⟩ =
      [⟨"https://ex.com/news/a", 100, "to_old"⟩,
       ⟨"https://ex.com/news/a", 200, "election_5"⟩] ∧
    countUrl
      (linkCreate [⟨"https://ex.com/news/a", 100, "to_old"⟩]
        ⟨"https://ex.com/news/a", 200, "election_5"⟩)
      "https://ex.com/news/a" = 2 := by
  decide

/-- Claim C1 (amended): the storage layer does NOT enforce url uniqueness.
`Link.create` is an unconditional insert that always succeeds: inserting a
record whose url is already present appends a duplicate row (raising the
url's row count by one) instead of failing with a DuplicateKey error; the
dedup invariant is maintained only by the pipeline's lookup-before-extract
check. -/
theorem C1_create_appends_duplicate (store : List LinkRecord) (rec : LinkRecord) :
    linkCreate store rec = store ++ [rec] ∧
    countUrl (linkCreate store rec) rec.link = countUrl store rec.link + 1 := by
  refine ⟨rfl, ?_⟩
  simp [linkCreate, countUrl, List.filter_append]

/-- Claim C2, counterexample: with `now - publishDate` = 1 day 1 second
(86401 seconds), the candidate is NOT rejected as old: processing proceeds to
the length filter and, the article being short, writes a `to_small` record
(not `to_old`). -/
theorem C2_counterexample :
    envC2.now - shortArticle.date_publish = 86401 ∧
    tooOldB envC2.now shortArticle.date_publish = false ∧
    processOne envC2 [] "/news/a" =
      ([⟨"https://ex.com/news/a", 0, "to_small"⟩], [], none) := by
  decide

/-- Claim C2 (amended): an article with `now - publishDate` of exactly 1 day
0 hours passes the age filter and so does one of 1 day 1 second; the filter
rejects exactly the candidates at least two whole days old (`date_delta.days
> 1`), writing a `to_old` record and sending no notification; a candidate
that passes moves on to the length filter (a `to_small` record or the
accepted record). -/
theorem C2_age_filter (env : Env) (store : List LinkRecord) (href : String)
    (page : Article)
    (hfresh : linkGetOrNone store (resolveLink env.urlSite href) = none)
    (hex : env.extract (resolveLink env.urlSite href) = some page) :
    (env.now - page.date_publish = 86400 → tooOldB env.now page.date_publish = false) ∧
    (env.now - page.date_publish = 86401 → tooOldB env.now page.date_publish = false) ∧
    (tooOldB env.now page.date_publish = true ↔ 172800 ≤ env.now - page.date_publish) ∧
    (tooOldB env.now page.date_publish = true →
      processOne env store href =
        (store ++ [⟨resolveLink env.urlSite href, page.date_publish, "to_old"⟩],
         [], none)) ∧
    (tooOldB env.now page.date_publish = false →
      processOne env store href =
        (store ++ [⟨resolveLink env.urlSite href, page.date_publish, "to_small"⟩],
         [], none) ∨
      (processOne env store href).1 =
        store ++ [acceptedRecord env page (resolveLink env.urlSite href)]) := by
  have hiff := tooOldB_iff env.now page.date_publish
  refine ⟨?_, ?_, hiff, ?_, ?_⟩
  · intro h
    rcases hb : tooOldB env.now page.date_publish with _ | _
    · rfl
    · exact absurd (hiff.mp hb) (by omega)
  · intro h
    rcases hb : tooOldB env.now page.date_publish with _ | _
    · rfl
    · exact absurd (hiff.mp hb) (by omega)
  · intro hold
    simp [processOne, hfresh, hex, hold, linkCreate]
  · intro hyoung
    by_cases hlen : page.maintext.length < 512
    · left
      simp [processOne, hfresh, hex, hyoung, hlen, linkCreate]
    · right
      simp only [processOne, hfresh, hex, hyoung, hlen, linkCreate,
        Bool.false_eq_true, if_false, if_neg hlen]
      cases push_news env (resolveLink env.urlSite href) <;> rfl

/-- Claim C2's theorem instantiated: at `envC2` (1 day 1 second elapsed) the
hypotheses hold and the age filter does not fire. -/
theorem C2_age_filter_witness :
    envC2.now - shortArticle.date_publish = 86401 ∧
    tooOldB envC2.now shortArticle.date_publish = false := by
  have h := C2_age_filter envC2 [] "/news/a" shortArticle (by decide) (by decide)
  exact ⟨by decide, h.2.1 (by decide)⟩

/-- Claim C3, counterexample: a candidate beginning with two slashes does NOT
keep one of them after resolution.  `lstrip("/")` removes every leading slash,
so `//news/a` resolves to `https://ex.com/news/a`, while the spec's
strip-exactly-one rule would give `https://ex.com//news/a`. -/
theorem C3_counterexample :
    resolveLink (mkUrlSite "https" "ex.com") "//news/a" = "https://ex.com/news/a" ∧
    resolveLinkSpecOne (mkUrlSite "https" "ex.com") "//news/a" = "https://ex.com//news/a" ∧
    resolveLink (mkUrlSite "https" "ex.com") "//news/a" ≠
      resolveLinkSpecOne (mkUrlSite "https" "ex.com") "//news/a" := by
  decide

/-- Claim C3 (amended): the resolved url is the site root (scheme ++ "://" ++
the netloc with ALL trailing slashes stripped) joined by exactly one slash to
the candidate with ALL leading slashes stripped: stripping is idempotent over
extra slashes on either side, so a candidate beginning with two slashes keeps
none of them. -/
theorem C3_resolution (scheme netloc href : String) :
    resolveLink (mkUrlSite scheme netloc) href =
      mkUrlSite scheme netloc ++ "/" ++ lstripSlashes href ∧
    lstripSlashes ("/" ++ href) = lstripSlashes href ∧
    rstripSlashes (netloc ++ "/") = rstripSlashes netloc ∧
    resolveLink (mkUrlSite "https" "ex.com") "//news/a" = "https://ex.com/news/a" := by
  refine ⟨rfl, ?_, ?_, by decide⟩
  · cases href with
    | mk l => rfl
  · cases netloc with
    | mk l =>
      show String.mk ((String.mk (l ++ ['/'])).data.reverse.dropWhile
          (fun c => c == '/')).reverse = _
      rw [show (String.mk (l ++ ['/'])).data = l ++ ['/'] from rfl,
        List.reverse_append]
      simp [rstripSlashes, List.dropWhile]

/-- Claim C7, counterexample: for scorer output
`{"election": 5, "the": 10, "ab": 8, "vote": 4}` the accepted list is exactly
`["election_5"]`: `"vote"` has length 4 and is excluded by the length ≥ 5
rule, so the claimed accepted set `{"election_5", "vote_4"}` is wrong. -/
theorem C7_counterexample :
    selectKeywords [("election", 5), ("the", 10), ("ab", 8), ("vote", 4)] =
      ["election_5"] ∧
    "vote_4" ∉ selectKeywords [("election", 5), ("the", 10), ("ab", 8), ("vote", 4)] := by
  decide

/-- Claim C7 (amended): the persisted outcome of an accepted article is the
comma-joined list, in scorer iteration order, of `"{keyword}_{score}"` for
exactly the scorer pairs with score strictly greater than 3 AND keyword length
at least 5; on the example scorer output the accepted list is exactly
`["election_5"]` (`"vote"`, of length 4, fails the length rule). -/
theorem C7_keyword_selection (kvs : List (String × Int)) (env : Env)
    (page : Article) (u : String) :
    selectKeywords kvs =
      (kvs.filter fun p => p.2 > 3 && p.1.length ≥ 5).map
        (fun p => p.1 ++ "_" ++ toString p.2) ∧
    acceptedRecord env page u =
      ⟨u, page.date_publish,
        String.intercalate "," (selectKeywords (env.rake page.maintext))⟩ ∧
    selectKeywords [("election", 5), ("the", 10), ("ab", 8), ("vote", 4)] =
      ["election_5"] := by
  refine ⟨?_, rfl, by decide⟩
  induction kvs with
  | nil => rfl
  | cons p rest ih =>
    obtain ⟨k, v⟩ := p
    simp only [selectKeywords, List.filter_cons]
    by_cases h : (decide (v > 3) && decide (k.length ≥ 5)) = true
    · simp [h, ih]
    · simp [h, ih]

/-- `Link.get_or_none` finds nothing exactly when no stored row has that url. -/
theorem linkGetOrNone_eq_none_iff (store : List LinkRecord) (u : String) :
    linkGetOrNone store u = none ↔ ∀ rec ∈ store, rec.link ≠ u := by
  unfold linkGetOrNone
  rw [List.find?_eq_none]
  constructor
  · intro h rec hm he
    exact h rec hm (by simp [he])
  · intro h rec hm
    simp only [beq_iff_eq]
    exact h rec hm

/-- A row found by `Link.get_or_none` is stored and has the looked-up url. -/
theorem linkGetOrNone_eq_some (store : List LinkRecord) (u : String)
    (r : LinkRecord) (h : linkGetOrNone store u = some r) : r ∈ store ∧ r.link = u := by
  unfold linkGetOrNone at h
  refine ⟨List.mem_of_find?_eq_some h, ?_⟩
  have := List.find?_some h
  simpa using this

/-- Every run of the per-candidate body falls in one of three cases: a
history skip, an extraction-failure skip, or the creation of exactly one new
record carrying the candidate's resolved url. -/
theorem processOne_shape (env : Env) (store : List LinkRecord) (href : String) :
    ((∃ rec ∈ store, rec.link = resolveLink env.urlSite href) ∧
      processOne env store href = (store, [], none)) ∨
    (env.extract (resolveLink env.urlSite href) = none ∧
      processOne env store href = (store, [], none)) ∨
    (linkGetOrNone store (resolveLink env.urlSite href) = none ∧
      ∃ rec, rec.link = resolveLink env.urlSite href ∧
        (processOne env store href).1 = store ++ [rec]) := by
  cases hg : linkGetOrNone store (resolveLink env.urlSite href) with
  | some r =>
    left
    obtain ⟨hm, hl⟩ := linkGetOrNone_eq_some store _ r hg
    exact ⟨⟨r, hm, hl⟩, by simp [processOne, hg]⟩
  | none =>
    cases hex : env.extract (resolveLink env.urlSite href) with
    | none =>
      right; left
      exact ⟨rfl, by simp [processOne, hg, hex]⟩
    | some page =>
      right; right
      refine ⟨rfl, ?_⟩
      cases hold : tooOldB env.now page.date_publish with
      | true =>
        exact ⟨⟨resolveLink env.urlSite href, page.date_publish, "to_old"⟩,
          rfl, by simp [processOne, hg, hex, hold, linkCreate]⟩
      | false =>
        by_cases hlen : page.maintext.length < 512
        · exact ⟨⟨resolveLink env.urlSite href, page.date_publish, "to_small"⟩,
            rfl, by simp [processOne, hg, hex, hold, hlen, linkCreate]⟩
        · refine ⟨acceptedRecord env page (resolveLink env.urlSite href), rfl, ?_⟩
          simp only [processOne, hg, hex, hold, Bool.false_eq_true, if_false,
            if_neg hlen, linkCreate]
          cases push_news env (resolveLink env.urlSite href) <;> rfl

/-- A candidate whose resolved url is already stored, or whose extraction
fails, is skipped: the store is unchanged, nothing is notified, the loop
continues. -/
theorem processOne_skip_of (env : Env) (store : List LinkRecord) (href : String)
    (h : (∃ rec ∈ store, rec.link = resolveLink env.urlSite href) ∨
         env.extract (resolveLink env.urlSite href) = none) :
    processOne env store href = (store, [], none) := by
  cases hg : linkGetOrNone store (resolveLink env.urlSite href) with
  | some r => simp [processOne, hg]
  | none =>
    rcases h with ⟨rec, hmem, hlink⟩ | hex
    · exact absurd hlink ((linkGetOrNone_eq_none_iff store _).mp hg rec hmem)
    · simp [processOne, hg, hex]

/-- Url row counts add up over store concatenation. -/
theorem countUrl_append (s t : List LinkRecord) (u : String) :
    countUrl (s ++ t) u = countUrl s u + countUrl t u := by
  simp [countUrl, List.filter_append]

/-- A url absent from every row has count zero. -/
theorem countUrl_eq_zero (store : List LinkRecord) (u : String)
    (h : ∀ rec ∈ store, rec.link ≠ u) : countUrl store u = 0 := by
  unfold countUrl
  rw [List.length_eq_zero, List.filter_eq_nil_iff]
  intro rec hm
  simp [h rec hm]

/-- The per-candidate body preserves the at-most-one-row-per-url invariant. -/
theorem processOne_countUrl (env : Env) (store : List LinkRecord) (href : String)
    (hinv : ∀ u, countUrl store u ≤ 1) :
    ∀ u, countUrl (processOne env store href).1 u ≤ 1 := by
  intro u
  rcases processOne_shape env store href with ⟨_, he⟩ | ⟨_, he⟩ | ⟨hg, rec, hl, h1⟩
  · rw [he]; exact hinv u
  · rw [he]; exact hinv u
  · rw [h1, countUrl_append]
    by_cases hu : rec.link = u
    · have hz : countUrl store u = 0 := by
        refine countUrl_eq_zero store u ?_
        intro r hm
        rw [← hu, hl]
        exact (linkGetOrNone_eq_none_iff store _).mp hg r hm
      have hle : countUrl [rec] u ≤ 1 := List.length_filter_le _ _
      omega
    · have hz : countUrl [rec] u = 0 := countUrl_eq_zero [rec] u (by
        intro r hm
        rw [List.mem_singleton] at hm
        rw [hm]
        exact hu)
      have := hinv u
      omega

/-- The candidate loop preserves the at-most-one-row-per-url invariant. -/
theorem processLinks_countUrl (env : Env) :
    ∀ (links : List String) (store : List LinkRecord),
    (∀ u, countUrl store u ≤ 1) →
    ∀ u, countUrl (processLinks env links store).1 u ≤ 1 := by
  intro links
  induction links with
  | nil => intro store h u; exact h u
  | cons href rest ih =>
    intro store h u
    simp only [processLinks]
    by_cases hp : (processOne env store href).2.2 = none
    · rw [if_pos hp]
      exact ih _ (processOne_countUrl env store href h) u
    · rw [if_neg hp]
      exact processOne_countUrl env store href h u

/-- Claim C4: at-most-once processing per url.  If the store holds at most one
row per url, it still does after any `fetch` run — including when the same
resolved url arises twice from distinct hrefs within one run — and a url that
is already recorded is caught by the lookup-before-extract check and skipped:
no new record, no notification, and no dependence on the extractor at all (the
result is the same for every extraction function, so the article is not
re-fetched). -/
theorem C4_at_most_once (env : Env) (store : List LinkRecord)
    (hinv : ∀ u, countUrl store u ≤ 1) :
    (∀ u, countUrl (fetch env store).1 u ≤ 1) ∧
    (∀ href rec, rec ∈ store → rec.link = resolveLink env.urlSite href →
      ∀ f, processOne { env with extract := f } store href = (store, [], none)) := by
  constructor
  · intro u
    cases hpg : env.pageOk with
    | false => simp only [fetch, hpg, Bool.false_eq_true, if_false]; exact hinv u
    | true =>
      simp only [fetch, hpg, if_true]
      cases hd : discoverLinks env.urlPath env.anchors [] with
      | error e => exact hinv u
      | ok links => exact processLinks_countUrl env links.reverse store hinv u
  · intro href rec hmem hlink f
    exact processOne_skip_of { env with extract := f } store href
      (Or.inl ⟨rec, hmem, hlink⟩)

/-- Claim C4's theorem instantiated: starting from the empty store (trivially
at most one row per url), a run of `envC4` — whose two anchors `/news/a` and
`//news/a` resolve to the same url — leaves at most one row per url. -/
theorem C4_at_most_once_witness :
    (∀ u, countUrl [] u ≤ 1) ∧ (∀ u, countUrl (fetch envC4 []).1 u ≤ 1) := by
  have h := C4_at_most_once envC4 [] (fun u => by simp [countUrl])
  exact ⟨fun u => by simp [countUrl], h.1⟩

set_option maxRecDepth 16384 in
/-- Claim C5, counterexample: with credentials present and a raising
`requests.post`, the accepted candidate's record IS persisted, but the
notification failure is NOT recovered locally: nothing catches the exception,
so the run aborts and the remaining candidate `/news/a` is never processed —
the claim's "the run continues to the next candidate" is false. -/
theorem C5_counterexample :
    fetch envC5 [] =
      ([⟨"https://ex.com/news/b", 0, ""⟩], [], some Abort.exn) := by
  decide

/-- Claim C5 (amended): for every accepted candidate the LinkRecord is
persisted before notification is attempted (the resulting store contains the
record whatever the push outcome), and a missing-credentials failure is
recovered locally (logged no-op, run continues); but a delivery failure that
raises inside `requests.post` is NOT recovered: the record stays persisted
and the run aborts. -/
theorem C5_persist_before_notify (env : Env) (store : List LinkRecord)
    (href : String) (page : Article)
    (hfresh : linkGetOrNone store (resolveLink env.urlSite href) = none)
    (hex : env.extract (resolveLink env.urlSite href) = some page)
    (hage : tooOldB env.now page.date_publish = false)
    (hlen : ¬ page.maintext.length < 512) :
    (processOne env store href).1 =
      store ++ [acceptedRecord env page (resolveLink env.urlSite href)] ∧
    (credsMissing env = true →
      processOne env store href =
        (store ++ [acceptedRecord env page (resolveLink env.urlSite href)],
         [], none)) ∧
    (credsMissing env = false →
      env.deliverOk (resolveLink env.urlSite href) = false →
      processOne env store href =
        (store ++ [acceptedRecord env page (resolveLink env.urlSite href)],
         [], some Abort.exn)) := by
  refine ⟨?_, ?_, ?_⟩
  · simp only [processOne, hfresh, hex, hage, Bool.false_eq_true, if_false,
      if_neg hlen, linkCreate]
    cases push_news env (resolveLink env.urlSite href) <;> rfl
  · intro hcm
    simp [processOne, hfresh, hex, hage, hlen, push_news, hcm, linkCreate]
  · intro hcm hd
    simp [processOne, hfresh, hex, hage, hlen, push_news, hcm, hd, linkCreate]

set_option maxRecDepth 16384 in
/-- Claim C5's theorem instantiated at `envC5m` (credentials unset): the
accepted candidate is persisted and the notification no-op lets the run
continue. -/
theorem C5_persist_before_notify_witness :
    processOne envC5m [] "/news/b" =
      ([acceptedRecord envC5m longArticle (resolveLink envC5m.urlSite "/news/b")],
       [], none) := by
  have h := C5_persist_before_notify envC5m [] "/news/b" longArticle
    (by decide) (by decide) (by decide) (by decide)
  exact h.2.1 (by decide)

/-- Claim C6: a listing-page fetch failure is fatal — the driver loop stops
at that site with `sys.exit(1)` (non-zero exit status), the store untouched,
no notification sent, and no later site processed (no per-site isolation) —
whereas a failure to extract one candidate article only skips that candidate:
no record is written and the run continues. -/
theorem C6_failure_policy (env : Env) (rest : List Env) (store : List LinkRecord)
    (href : String) :
    (env.pageOk = false →
      mainRun (env :: rest) store = (store, [], some (Abort.sysExit 1))) ∧
    (linkGetOrNone store (resolveLink env.urlSite href) = none →
      env.extract (resolveLink env.urlSite href) = none →
      processOne env store href = (store, [], none)) := by
  constructor
  · intro hpg
    simp [mainRun, fetch, hpg]
  · intro hfresh hex
    exact processOne_skip_of env store href (Or.inr hex)

/-- Loop unfolding when a candidate does not abort the run. -/
theorem processLinks_cons_continue (env : Env) (href : String) (rest : List String)
    (store : List LinkRecord) (hp : (processOne env store href).2.2 = none) :
    processLinks env (href :: rest) store =
      ((processLinks env rest (processOne env store href).1).1,
       (processOne env store href).2.1 ++
         (processLinks env rest (processOne env store href).1).2.1,
       (processLinks env rest (processOne env store href).1).2.2) := by
  simp only [processLinks, if_pos hp]

/-- Loop unfolding when a candidate aborts the run. -/
theorem processLinks_cons_abort (env : Env) (href : String) (rest : List String)
    (store : List LinkRecord) (hp : ¬ (processOne env store href).2.2 = none) :
    processLinks env (href :: rest) store = processOne env store href := by
  simp only [processLinks, if_neg hp]

/-- The per-candidate body never removes a stored row. -/
theorem processOne_store_subset (env : Env) (store : List LinkRecord)
    (href : String) (rec : LinkRecord) (h : rec ∈ store) :
    rec ∈ (processOne env store href).1 := by
  rcases processOne_shape env store href with ⟨_, he⟩ | ⟨_, he⟩ | ⟨_, r, _, h1⟩
  · simp [he, h]
  · simp [he, h]
  · rw [h1]; exact List.mem_append_left _ h

/-- The candidate loop never removes a stored row. -/
theorem processLinks_store_subset (env : Env) :
    ∀ (links : List String) (store : List LinkRecord) (rec : LinkRecord),
    rec ∈ store → rec ∈ (processLinks env links store).1 := by
  intro links
  induction links with
  | nil => intro store rec h; exact h
  | cons href rest ih =>
    intro store rec h
    by_cases hp : (processOne env store href).2.2 = none
    · rw [processLinks_cons_continue env href rest store hp]
      exact ih _ rec (processOne_store_subset env store href rec h)
    · rw [processLinks_cons_abort env href rest store hp]
      exact processOne_store_subset env store href rec h

/-- After a loop that ran to completion, every candidate's resolved url is
either recorded in the final store or fails extraction. -/
theorem processLinks_covered (env : Env) :
    ∀ (links : List String) (store : List LinkRecord),
    (processLinks env links store).2.2 = none →
    ∀ href ∈ links,
      (∃ rec ∈ (processLinks env links store).1,
        rec.link = resolveLink env.urlSite href) ∨
      env.extract (resolveLink env.urlSite href) = none := by
  intro links
  induction links with
  | nil => intro store _ href hm; cases hm
  | cons href0 rest ih =>
    intro store habort href hm
    by_cases hp : (processOne env store href0).2.2 = none
    · rw [processLinks_cons_continue env href0 rest store hp] at habort ⊢
      rcases List.mem_cons.mp hm with hhead | htail
      · subst hhead
        rcases processOne_shape env store href with ⟨⟨rec, hmem, hl⟩, he⟩ | ⟨hexn, _⟩ | ⟨_, rec, hl, h1⟩
        · left
          refine ⟨rec, ?_, hl⟩
          exact processLinks_store_subset env rest _ rec
            (processOne_store_subset env store href rec hmem)
        · right; exact hexn
        · left
          refine ⟨rec, ?_, hl⟩
          refine processLinks_store_subset env rest _ rec ?_
          rw [h1]
          exact List.mem_append_right _ (List.mem_singleton_self rec)
      · exact ih _ habort href htail
    · exfalso
      rw [processLinks_cons_abort env href0 rest store hp] at habort
      exact hp habort

/-- A loop over candidates that are all covered (already recorded or failing
extraction) is a no-op: unchanged store, no notification, normal end. -/
theorem processLinks_noop (env : Env) :
    ∀ (links : List String) (store : List LinkRecord),
    (∀ href ∈ links,
      (∃ rec ∈ store, rec.link = resolveLink env.urlSite href) ∨
      env.extract (resolveLink env.urlSite href) = none) →
    processLinks env links store = (store, [], none) := by
  intro links
  induction links with
  | nil => intro store _; rfl
  | cons href rest ih =>
    intro store h
    have hone : processOne env store href = (store, [], none) :=
      processOne_skip_of env store href (h href (List.mem_cons_self href rest))
    have hrest := ih store (fun h' hm => h h' (List.mem_cons_of_mem _ hm))
    rw [processLinks_cons_continue env href rest store (by rw [hone])]
    simp [hone, hrest]

/-- Claim C9: running the pipeline a second time against an unchanged listing
page, unchanged store, and the same external collaborators creates zero new
LinkRecords and sends zero notifications: every candidate either already has
a record (dedup skip) or fails extraction again. -/
theorem C9_idempotent (env : Env) (store s1 : List LinkRecord) (n1 : List String)
    (h : fetch env store = (s1, n1, none)) :
    fetch env s1 = (s1, [], none) := by
  cases hpg : env.pageOk with
  | false =>
    rw [fetch, hpg] at h
    simp at h
  | true =>
    cases hd : discoverLinks env.urlPath env.anchors [] with
    | error e =>
      simp only [fetch, hpg, if_true, hd] at h
      simp at h
    | ok links =>
      simp only [fetch, hpg, if_true, hd] at h ⊢
      have hcov := processLinks_covered env links.reverse store (by rw [h])
      refine processLinks_noop env links.reverse s1 ?_
      intro href hm
      rcases hcov href hm with ⟨rec, hmem, hl⟩ | hexn
      · left
        refine ⟨rec, ?_, hl⟩
        rw [h] at hmem
        exact hmem
      · right; exact hexn

/-- Claim C9's theorem instantiated: a second run of `envC9` against the
store produced by the first run writes nothing and notifies nobody. -/
theorem C9_idempotent_witness :
    fetch envC9
      [⟨"https://ex.com/news/b", 0, "to_old"⟩,
       ⟨"https://ex.com/news/a", 0, "to_old"⟩] =
      ([⟨"https://ex.com/news/b", 0, "to_old"⟩,
        ⟨"https://ex.com/news/a", 0, "to_old"⟩], [], none) :=
  C9_idempotent envC9 []
    [⟨"https://ex.com/news/b", 0, "to_old"⟩,
     ⟨"https://ex.com/news/a", 0, "to_old"⟩] [] (by decide)

/-- An anchor with no `href` attribute poisons the whole discovery loop. -/
theorem discoverLinks_of_mem_none (urlPath : String) :
    ∀ (anchors : List (Option String)) (acc : List String),
    none ∈ anchors → discoverLinks urlPath anchors acc = .error () := by
  intro anchors
  induction anchors with
  | nil => intro acc h; cases h
  | cons a rest ih =>
    intro acc h
    cases a with
    | none => rfl
    | some s =>
      have hr : none ∈ rest := by
        rcases List.mem_cons.mp h with h1 | h2
        · simp at h1
        · exact h2
      simp only [discoverLinks]
      split
      · exact ih _ hr
      · exact ih _ hr

/-- Claim C10: if some anchor on the listing page carries no `href`
attribute, the candidate test `url_path in href` hits `None` and raises an
unhandled `TypeError`: the whole run crashes with the store untouched and no
notification sent — before any candidate of the page is processed. -/
theorem C10_missing_href_crash (env : Env) (store : List LinkRecord)
    (hpage : env.pageOk = true) (hnone : none ∈ env.anchors) :
    fetch env store = (store, [], some Abort.exn) := by
  simp only [fetch, hpage, if_true,
    discoverLinks_of_mem_none env.urlPath env.anchors [] hnone]

/-- Claim C10's theorem instantiated: `envC10` has a valid candidate followed
by an href-less anchor, and its run crashes with nothing processed. -/
theorem C10_missing_href_crash_witness :
    fetch envC10 [] = ([], [], some Abort.exn) :=
  C10_missing_href_crash envC10 [] rfl (by decide)

/-- A loop over fresh, young, long candidates, with credentials present and a
working Telegram endpoint, appends one accepted record per candidate and sends
one notification per candidate, in loop order. -/
theorem processLinks_accepted (env : Env) (pg : String → Article)
    (hcreds : credsMissing env = false)
    (hdeliver : ∀ u, env.deliverOk u = true) :
    ∀ (links : List String) (store : List LinkRecord),
    (∀ href ∈ links, env.extract (resolveLink env.urlSite href) = some (pg href)) →
    (∀ href ∈ links, tooOldB env.now (pg href).date_publish = false) →
    (∀ href ∈ links, ¬ (pg href).maintext.length < 512) →
    (∀ href ∈ links, ∀ rec ∈ store, rec.link ≠ resolveLink env.urlSite href) →
    (links.map (resolveLink env.urlSite)).Nodup →
    processLinks env links store =
      (store ++ links.map
        (fun h => acceptedRecord env (pg h) (resolveLink env.urlSite h)),
       links.map (resolveLink env.urlSite), none) := by
  intro links
  induction links with
  | nil => intro store _ _ _ _ _; simp [processLinks]
  | cons href rest ih =>
    intro store hex hage hlen hfresh hnodup
    have hfr : linkGetOrNone store (resolveLink env.urlSite href) = none :=
      (linkGetOrNone_eq_none_iff store _).mpr
        (fun rec hm => hfresh href (List.mem_cons_self href rest) rec hm)
    have hpush : push_news env (resolveLink env.urlSite href) = PushResult.sent := by
      simp [push_news, hcreds, hdeliver]
    have hone : processOne env store href =
        (store ++ [acceptedRecord env (pg href) (resolveLink env.urlSite href)],
         [resolveLink env.urlSite href], none) := by
      simp [processOne, hfr, hex href (List.mem_cons_self href rest),
        hage href (List.mem_cons_self href rest),
        hlen href (List.mem_cons_self href rest), hpush, linkCreate]
    have hnodup' : (rest.map (resolveLink env.urlSite)).Nodup := by
      rw [List.map_cons] at hnodup
      exact (List.nodup_cons.mp hnodup).2
    have hhead : resolveLink env.urlSite href ∉ rest.map (resolveLink env.urlSite) := by
      rw [List.map_cons] at hnodup
      exact (List.nodup_cons.mp hnodup).1
    have hfresh' : ∀ h' ∈ rest,
        ∀ rec ∈ store ++
          [acceptedRecord env (pg href) (resolveLink env.urlSite href)],
        rec.link ≠ resolveLink env.urlSite h' := by
      intro h' hm rec hrec
      rcases List.mem_append.mp hrec with hs | hsing
      · exact hfresh h' (List.mem_cons_of_mem _ hm) rec hs
      · rw [List.mem_singleton] at hsing
        subst hsing
        simp only [acceptedRecord]
        intro he
        apply hhead
        rw [he]
        exact List.mem_map_of_mem _ hm
    have hrest := ih
      (store ++ [acceptedRecord env (pg href) (resolveLink env.urlSite href)])
      (fun h' hm => hex h' (List.mem_cons_of_mem _ hm))
      (fun h' hm => hage h' (List.mem_cons_of_mem _ hm))
      (fun h' hm => hlen h' (List.mem_cons_of_mem _ hm))
      hfresh' hnodup'
    rw [processLinks_cons_continue env href rest store (by rw [hone])]
    simp only [hone, hrest]
    simp [List.append_assoc]

/-- Claim C8: when every discovered candidate is fresh, young, long enough,
and deliverable, the run processes the discovered list `L` in exactly reverse
discovery order: the records appended to the store and the notifications sent
are those of `L.reverse`, in that order. -/
theorem C8_reverse_order (env : Env) (L : List String) (pg : String → Article)
    (hpage : env.pageOk = true)
    (hdisc : discoverLinks env.urlPath env.anchors [] = Except.ok L)
    (hcreds : credsMissing env = false)
    (hdeliver : ∀ u, env.deliverOk u = true)
    (hex : ∀ href ∈ L, env.extract (resolveLink env.urlSite href) = some (pg href))
    (hage : ∀ href ∈ L, tooOldB env.now (pg href).date_publish = false)
    (hlen : ∀ href ∈ L, ¬ (pg href).maintext.length < 512)
    (hnodup : (L.map (resolveLink env.urlSite)).Nodup) :
    fetch env [] =
      (L.reverse.map
        (fun h => acceptedRecord env (pg h) (resolveLink env.urlSite h)),
       L.reverse.map (resolveLink env.urlSite), none) := by
  simp only [fetch, hpage, if_true, hdisc]
  have := processLinks_accepted env pg hcreds hdeliver L.reverse []
    (fun h hm => hex h (List.mem_reverse.mp hm))
    (fun h hm => hage h (List.mem_reverse.mp hm))
    (fun h hm => hlen h (List.mem_reverse.mp hm))
    (fun h _ rec hrec => absurd hrec (List.not_mem_nil rec))
    (by rw [List.map_reverse]; exact List.nodup_reverse.mpr hnodup)
  simpa using this

set_option maxRecDepth 16384 in
/-- The long test article's maintext has exactly 512 characters. -/
theorem longArticle_maintext_length : longArticle.maintext.length = 512 := by
  decide

/-- Claim C8's theorem instantiated: `envC8` discovers `["/news/a", "/news/b"]`
and the run persists and notifies `/news/b` first, then `/news/a`. -/
theorem C8_reverse_order_witness :
    fetch envC8 [] =
      (["/news/b", "/news/a"].map
        (fun h => acceptedRecord envC8 longArticle (resolveLink envC8.urlSite h)),
       ["/news/b", "/news/a"].map (resolveLink envC8.urlSite), none) :=
  C8_reverse_order envC8 ["/news/a", "/news/b"] (fun _ => longArticle) rfl rfl rfl
    (fun _ => rfl) (fun _ _ => rfl) (fun _ _ => rfl)
    (fun _ _ => by simp [longArticle_maintext_length]) (by decide)
